import Mathlib

/-!
Verification development for the x402 NFT-mint payment gateway
(`src/backend.py`).  The Python source is shallowly embedded: parsed JSON
payloads become the inductive `Json`, Python truthiness becomes `truthy`,
the `decode_x402_payment` function, the submission retry loops of
`/api/facilitate` and `/api/mint`, the `/api/mint` settlement pipeline,
the `/api/info` cache and the two module-level locks are all modelled as
executable Lean functions.  Remote-chain behaviour (pending nonce reads,
gas price reads, submission outcomes) is supplied through explicit
oracle records, mirroring how the code consults `w3`.
-/

/-- Minimal model of a parsed JSON value (the result of `json.loads`).
Arrays are omitted: no payload shape handled by the code stores a
required field in an array. -/
inductive Json where
  | null
  | bool (b : Bool)
  | num (n : Int)
  | str (s : String)
  | obj (fields : List (String × Json))

/-- Python `dict.get(k)`: the stored value when the key is present,
`none` when absent (and on non-dict values, where the Python code would
raise into its catch-all handler). -/
def Json.get : Json → String → Option Json
  | .obj fields, k => fields.lookup k
  | _, _ => none

/-- Python `k in d` on a dict: key membership (the stored value may be
`null` and the key still counts as present). -/
def Json.hasKey (j : Json) (k : String) : Bool :=
  (j.get k).isSome

/-- Python truthiness of an extracted field, as tested by
`all([from_addr, to_addr, value, nonce, valid_after, valid_before,
signature])` in `decode_x402_payment`: `None`, `False`, `0`, the empty
string and the empty dict are all falsy. -/
def truthy : Option Json → Bool
  | none => false
  | some .null => false
  | some (.bool b) => b
  | some (.num n) => n != 0
  | some (.str s) => s != ""
  | some (.obj fields) => !fields.isEmpty

/-- Python `str()` of a field value, as interpolated by the f-string
that feeds `Web3.keccak(text=...)`.  Only determinism matters for the
claims; the rendering of composite values is a fixed placeholder. -/
def pyStr : Json → String
  | .null => "None"
  | .bool true => "True"
  | .bool false => "False"
  | .num n => toString n
  | .str s => s
  | .obj _ => "<dict>"

/-- The normalized payment record built by `decode_x402_payment` on
success (the `'valid': True` dictionary), including the derived
`txHash` settlement digest. -/
structure PaymentData where
  from_addr : Json
  to_addr : Json
  value : Json
  nonce : Json
  validAfter : Json
  validBefore : Json
  signature : Json
  txHash : String

/-- Result of `decode_x402_payment`: the normalized record, or the
`'valid': False` dictionary with its error string. -/
inductive DecodeResult where
  | ok (p : PaymentData)
  | invalid (error : String)

/-- Field extraction of `decode_x402_payment` (backend.py lines
99-121): if `'payload' in payment_data and 'authorization' in
payment_data['payload']` the nested x402scan shape is read, otherwise
the flat legacy shape is read from the top level. -/
def extractFields (payment_data : Json) :
    Option Json × Option Json × Option Json × Option Json ×
    Option Json × Option Json × Option Json :=
  let flat :=
    (payment_data.get ("from"), payment_data.get ("to"),
     payment_data.get ("value"), payment_data.get ("nonce"),
     payment_data.get ("validAfter"), payment_data.get ("validBefore"),
     payment_data.get ("signature"))
  match payment_data.get ("payload") with
  | some payload =>
    if payload.hasKey ("authorization") then
      let auth := (payload.get ("authorization")).getD .null
      (auth.get ("from"), auth.get ("to"), auth.get ("value"),
       auth.get ("nonce"), auth.get ("validAfter"),
       auth.get ("validBefore"), payload.get ("signature"))
    else flat
  | none => flat

/-- The required-field check and record construction of
`decode_x402_payment` (backend.py lines 122-143): reject when
`not all([...])`, otherwise derive
`txHash = keccak(fNonceValidBefore-concatenation)` and return the
normalized record. -/
def decodeFields (keccak : String → String)
    (f7 : Option Json × Option Json × Option Json × Option Json ×
          Option Json × Option Json × Option Json) : DecodeResult :=
  match f7 with
  | (from_addr, to_addr, value, nonce, valid_after, valid_before, signature) =>
    if truthy from_addr && truthy to_addr && truthy value && truthy nonce &&
       truthy valid_after && truthy valid_before && truthy signature then
      let tx_hash := keccak
        (pyStr (from_addr.getD .null) ++ pyStr (nonce.getD .null) ++
         pyStr (valid_before.getD .null))
      .ok {
        from_addr := from_addr.getD .null
        to_addr := to_addr.getD .null
        value := value.getD .null
        nonce := nonce.getD .null
        validAfter := valid_after.getD .null
        validBefore := valid_before.getD .null
        signature := signature.getD .null
        txHash := tx_hash }
    else
      .invalid ("Missing required fields")

/-- `decode_x402_payment` (backend.py lines 87-147) on an already
base64/JSON-parsed header, with `Web3.keccak(...).hex()` abstracted as
the parameter `keccak`. -/
def decode_x402_payment (keccak : String → String) (payment_data : Json) :
    DecodeResult :=
  decodeFields keccak (extractFields payment_data)

/-- All seven extracted fields pass the Python truthiness test. -/
def allFieldsTruthy (payment_data : Json) : Bool :=
  match extractFields payment_data with
  | (a, b, c, d, e, f, g) =>
    truthy a && truthy b && truthy c && truthy d &&
    truthy e && truthy f && truthy g

/-- Tokens on which the Lean model and the Python code agree everywhere
(the code raises into its catch-all on non-dict payloads; such inputs
are excluded here): the token is a JSON object, and if `payload` /
`payload.authorization` are present they are objects. -/
def wellShaped : Json → Bool
  | .obj fields =>
    match (Json.obj fields).get ("payload") with
    | none => true
    | some (.obj pf) =>
      match (Json.obj pf).get ("authorization") with
      | none => true
      | some (.obj _) => true
      | some _ => false
    | some _ => false
  | _ => false

/-- A flat legacy-format token carrying the seven logical fields. -/
def flatToken (f t v n va vb sg : Json) : Json :=
  .obj [("from", f), ("to", t), ("value", v), ("nonce", n),
        ("validAfter", va), ("validBefore", vb), ("signature", sg)]

/-- A nested x402scan-format token carrying the same seven logical
fields under `payload.authorization` plus `payload.signature`. -/
def nestedToken (f t v n va vb sg : Json) : Json :=
  .obj [("payload", .obj
    [("authorization", .obj
      [("from", f), ("to", t), ("value", v), ("nonce", n),
       ("validAfter", va), ("validBefore", vb)]),
     ("signature", sg)])]

/-- Outcome the remote chain produces for one submission attempt:
either a confirmation receipt with its `status` field, or an exception
raised somewhere in the build/sign/send/wait sequence. -/
inductive AttemptOutcome where
  | confirmed (status : Nat)
  | submitError (msg : String)
deriving DecidableEq

/-- Oracle for the remote chain as consulted inside the retry loop:
the value `w3.eth.get_transaction_count(admin, 'pending')` returns at
attempt `i`, the value `w3.eth.gas_price` returns at attempt `i`, the
outcome of attempt `i`, and the hex hash of the transaction submitted
at attempt `i`. -/
structure ChainEnv where
  pendingNonce : Nat → Nat
  gasPrice : Nat → Nat
  outcome : Nat → AttemptOutcome
  txHash : Nat → String

/-- The transaction parameters of one submission, as assembled by
`build_transaction`. -/
structure Submission where
  nonce : Nat
  gas : Nat
  gasMultiplier : Nat
  maxFeePerGas : Nat
deriving DecidableEq

/-- Observable actions of the retry loop: a fresh pending-nonce read, a
submission, and a `time.sleep` backoff. -/
inductive Event where
  | readNonce (attempt n : Nat)
  | submit (attempt : Nat) (s : Submission)
  | sleep (secs : Nat)
deriving DecidableEq

/-- Terminal result of the retry loop. -/
inductive ExecResult where
  | success (tx : String)
  | failedAfterRetries
  | raisedError (msg : String)
  | allRetriesFailed
deriving DecidableEq

/-- `max_retries = 3` (backend.py lines 231 and 445). -/
def max_retries : Nat := 3

/-- Python `c.lower()` on one character. -/
def lowerCh (c : Char) : Char := c.toLower

/-- Python `s.lower()`. -/
def pyLower (s : String) : String := String.mk (s.toList.map lowerCh)

/-- `needle` occurs at the start of `hay`. -/
def chPref : List Char → List Char → Bool
  | [], _ => true
  | _ :: _, [] => false
  | a :: as, b :: bs => a == b && chPref as bs

/-- `needle` occurs somewhere in `hay` (Python `needle in hay`). -/
def chContains (needle : List Char) : List Char → Bool
  | [] => chPref needle []
  | c :: t => chPref needle (c :: t) || chContains needle t

/-- Python substring test `needle in hay`. -/
def strContains (hay needle : String) : Bool :=
  chContains needle.toList hay.toList

/-- The retry-eligibility test of the exception handlers (backend.py
lines 297 and 497): `'nonce' in error_msg.lower() or 'replacement' in
error_msg.lower()`. -/
def isNonceOrReplacement (msg : String) : Bool :=
  strContains (pyLower msg) ("nonce") || strContains (pyLower msg) ("replacement")

/-- The submission retry loop shared by `/api/facilitate` (backend.py
lines 230-307) and the mint step of `/api/mint` (lines 444-509),
run from attempt index `attempt` with `fuel` loop iterations left.
Each iteration reads the pending nonce and gas price fresh, bids
`base_fee * (2 + attempt)`, submits, and then: a receipt with
`status == 1` returns success; any other status retries after
`time.sleep(2)` unless it is the last attempt ("Transfer failed after
retries"); an exception whose message mentions nonce/replacement
retries after `time.sleep(3)` on a non-final attempt; any exception on
the final attempt is re-raised; any other exception on a non-final
attempt falls through the handler and retries with no sleep. -/
def runAttempts (gas : Nat) (env : ChainEnv) :
    Nat → Nat → List Event × ExecResult
  | _, 0 => ([], .allRetriesFailed)
  | attempt, fuel + 1 =>
    let nonce := env.pendingNonce attempt
    let base_fee := env.gasPrice attempt
    let gas_multiplier := 2 + attempt
    let sub : Submission :=
      { nonce := nonce, gas := gas, gasMultiplier := gas_multiplier,
        maxFeePerGas := base_fee * gas_multiplier }
    let evs := [Event.readNonce attempt nonce, Event.submit attempt sub]
    match env.outcome attempt with
    | .confirmed status =>
      if status == 1 then
        (evs, .success (env.txHash attempt))
      else if attempt < max_retries - 1 then
        let rest := runAttempts gas env (attempt + 1) fuel
        (evs ++ Event.sleep 2 :: rest.1, rest.2)
      else
        (evs, .failedAfterRetries)
    | .submitError msg =>
      if isNonceOrReplacement msg = true ∧ attempt < max_retries - 1 then
        let rest := runAttempts gas env (attempt + 1) fuel
        (evs ++ Event.sleep 3 :: rest.1, rest.2)
      else if max_retries - 1 ≤ attempt then
        (evs, .raisedError msg)
      else
        let rest := runAttempts gas env (attempt + 1) fuel
        (evs ++ rest.1, rest.2)

/-- The `/api/facilitate` USDC-transfer retry loop: `gas = 200000`. -/
def facilitate_retry (env : ChainEnv) : List Event × ExecResult :=
  runAttempts 200000 env 0 max_retries

/-- The `/api/mint` NFT-mint retry loop: `gas = 250000`. -/
def mint_retry (env : ChainEnv) : List Event × ExecResult :=
  runAttempts 250000 env 0 max_retries

/-- Recognize a submission event. -/
def isSubmitEv : Event → Bool
  | .submit _ _ => true
  | _ => false

/-- Number of on-chain submissions in a trace. -/
def countSubmits (evs : List Event) : Nat :=
  (evs.filter isSubmitEv).length

/-- Outcome of the `requests.post` self-call to `/api/facilitate` made
by `/api/mint` (backend.py lines 400-416): an HTTP 200 response with
the optional `tx` field of its JSON body, a non-200 response, or a
raised exception. -/
inductive FacOutcome where
  | ok200 (tx : Option String)
  | notOk (status : Nat)
  | exn (msg : String)
deriving DecidableEq

/-- JSON bodies `/api/mint` can answer with (backend.py lines 386-517),
ignoring the no-token 402 discovery document. -/
inductive MintResponse where
  | invalidPayment
  | transferFailed
  | success (tx : String) (toAddr : String) (tokenId : Nat)
  | mintTxFailed
  | mintFailedAfterRetries
  | serverError (msg : String)
deriving DecidableEq

/-- `MINT_PRICE` default (backend.py line 30): 1 USDC in smallest
units. -/
def MINT_PRICE : Nat := 1000000

/-- The `/api/mint` settlement pipeline after the x-payment header is
present and parsed (backend.py lines 382-517): decode, call the
facilitator, stop with "USDC transfer failed" unless it answered 200,
then under `mint_lock` read `currentTokenId()` (a read failure raises
into the outer handler and fails the request), run the mint retry loop
and translate its result.  Notably there is no policy check of the
decoded amount or recipient anywhere on this path. -/
def mint (keccak checksum : String → String) (payment_data : Json)
    (fac : FacOutcome) (tokenIdRead : Except String Nat) (env : ChainEnv) :
    List Event × MintResponse :=
  match decode_x402_payment keccak payment_data with
  | .invalid _ => ([], .invalidPayment)
  | .ok pd =>
    match fac with
    | .ok200 _ =>
      match tokenIdRead with
      | .error e => ([], .serverError e)
      | .ok current_token_id =>
        let user_address := checksum (pyStr pd.from_addr)
        let res := mint_retry env
        match res.2 with
        | .success mint_tx =>
          (res.1, .success mint_tx user_address (current_token_id + 1))
        | .failedAfterRetries => (res.1, .mintTxFailed)
        | .raisedError msg => (res.1, .serverError msg)
        | .allRetriesFailed => (res.1, .mintFailedAfterRetries)
    | _ => ([], .transferFailed)

/-- `CACHE_TTL = 10` seconds (backend.py line 37). -/
def CACHE_TTL : Nat := 10

/-- The `minted` field of the info payload: a number, or the string
"unknown" stored on a contract read failure (backend.py line 539). -/
inductive SupplyVal where
  | n (v : Nat)
  | unknown
deriving DecidableEq

/-- Configuration values interpolated into the info payload. -/
structure InfoConfig where
  contract : String
  price : Nat
  recipient : String
deriving DecidableEq

/-- The JSON data built by `/api/info` (backend.py lines 542-549).
The derived float field `price_usdc` is omitted (floating point). -/
structure InfoData where
  contract : String
  price : Nat
  recipient : String
  minted : SupplyVal
  maxSupply : Nat
deriving DecidableEq

/-- The cache-refresh path of `/api/info` (backend.py lines 529-555):
read `totalSupply` and `MAX_SUPPLY` inside one `try` (falling back to
"unknown" / 1000 on failure), build the payload, and store it in the
cache unconditionally with the current timestamp. -/
def refresh_info_cache (cfg : InfoConfig)
    (readSupply : Except String (Nat × Nat)) (now : Nat) :
    InfoData × Option (InfoData × Nat) :=
  let supplies :=
    match readSupply with
    | .ok (t, m) => (SupplyVal.n t, m)
    | .error _ => (SupplyVal.unknown, 1000)
  let data : InfoData :=
    { contract := cfg.contract, price := cfg.price,
      recipient := cfg.recipient, minted := supplies.1,
      maxSupply := supplies.2 }
  (data, some (data, now))

/-- `/api/info` (backend.py lines 519-555): serve the cached payload
while `now - timestamp < CACHE_TTL` and the cached data is truthy
(a stored payload dict always is), otherwise refresh.  Returns the
response body and the cache cell after the call. -/
def info (cfg : InfoConfig) (readSupply : Except String (Nat × Nat))
    (now : Nat) (cache : Option (InfoData × Nat)) :
    InfoData × Option (InfoData × Nat) :=
  match cache with
  | some (d, ts) =>
    if now - ts < CACHE_TTL then (d, some (d, ts))
    else refresh_info_cache cfg readSupply now
  | none => refresh_info_cache cfg readSupply now

/-- The two module-level locks of backend.py (lines 40-41):
`facilitator_lock` guards the critical section of `/api/facilitate`,
`mint_lock` guards the mint critical section of `/api/mint`. -/
inductive LockId where
  | fac
  | mint
deriving DecidableEq

/-- One request handler executing the signer-critical section
`acquire lock, read pending nonce, submit, release lock`.
`pc` counts completed steps (4 = done), `readVal` records the pending
nonce the handler observed. -/
structure TaskSt where
  pc : Nat
  readVal : Option Nat
deriving DecidableEq

/-- Interleaving state of two request handlers sharing the admin
signer: the chain's pending transaction count for the signer, the
holder of each module-level lock, and the two handlers. -/
structure SysSt where
  pending : Nat
  facHeld : Option Bool
  mintHeld : Option Bool
  t0 : TaskSt
  t1 : TaskSt
deriving DecidableEq

/-- Handler `t` of the state. -/
def SysSt.task (s : SysSt) (t : Bool) : TaskSt :=
  cond t s.t1 s.t0

/-- Replace handler `t`. -/
def SysSt.setTask (s : SysSt) (t : Bool) (ts : TaskSt) : SysSt :=
  cond t { s with t1 := ts } { s with t0 := ts }

/-- Holder of lock `l`. -/
def SysSt.held (s : SysSt) (l : LockId) : Option Bool :=
  match l with
  | .fac => s.facHeld
  | .mint => s.mintHeld

/-- Set the holder of lock `l`. -/
def SysSt.setHeld (s : SysSt) (l : LockId) (v : Option Bool) : SysSt :=
  match l with
  | .fac => { s with facHeld := v }
  | .mint => { s with mintHeld := v }

/-- One scheduler step giving handler `t` the CPU.  `tl t` is the lock
the handler's endpoint uses (`facilitator_lock` for `/api/facilitate`,
`mint_lock` for `/api/mint`).  Step 0 blocks on `with lock`; step 1 is
`w3.eth.get_transaction_count(admin, 'pending')`; step 2 is
`send_raw_transaction`, after which the signer's pending count includes
the new in-flight transaction; step 3 releases the lock. -/
def sysStep (tl : Bool → LockId) (t : Bool) (s : SysSt) : SysSt :=
  let ts := s.task t
  match ts.pc with
  | 0 =>
    match s.held (tl t) with
    | none => (s.setHeld (tl t) (some t)).setTask t { ts with pc := 1 }
    | some _ => s
  | 1 => s.setTask t { pc := 2, readVal := some s.pending }
  | 2 => { s.setTask t { ts with pc := 3 } with pending := s.pending + 1 }
  | 3 => (s.setHeld (tl t) none).setTask t { ts with pc := 4 }
  | _ => s

/-- Run a schedule (a list of handler choices). -/
def runSched (tl : Bool → LockId) (sched : List Bool) (s : SysSt) : SysSt :=
  sched.foldl (fun s t => sysStep tl t s) s

/-- Initial state: pending count `p`, both locks free, both handlers at
the start of their critical sections. -/
def sysInit (p : Nat) : SysSt :=
  { pending := p, facHeld := none, mintHeld := none,
    t0 := { pc := 0, readVal := none }, t1 := { pc := 0, readVal := none } }

/-- Handler is inside its critical section (lock acquired, not yet
released). -/
def inCrit (ts : TaskSt) : Prop :=
  1 ≤ ts.pc ∧ ts.pc ≤ 3

/-- Per-handler invariant relating its progress, its recorded
pending-nonce read and the chain's pending count. -/
def TaskInv (pending : Nat) (ts : TaskSt) : Prop :=
  ts.pc ≤ 4 ∧
  (ts.pc ≤ 1 → ts.readVal = none) ∧
  (ts.pc = 2 → ts.readVal = some pending) ∧
  (3 ≤ ts.pc → ∃ v, ts.readVal = some v ∧ v < pending)

/-- System invariant when both handlers guard their critical section
with the same lock `l`: each handler satisfies its local invariant, a
handler inside the critical section holds `l`, and any two recorded
reads differ. -/
def SysInv (l : LockId) (s : SysSt) : Prop :=
  TaskInv s.pending (s.task false) ∧ TaskInv s.pending (s.task true) ∧
  (inCrit (s.task false) → s.held l = some false) ∧
  (inCrit (s.task true) → s.held l = some true) ∧
  (∀ v w, (s.task false).readVal = some v → (s.task true).readVal = some w →
    v ≠ w)

/-- A facilitation handler and a mint handler from different requests:
task `false` uses `facilitator_lock`, task `true` uses `mint_lock`. -/
def tlMixed : Bool → LockId := fun t => cond t .mint .fac

/-- Schedule interleaving the two critical sections: both handlers
acquire their (different) locks and read the pending nonce before
either submits. -/
def schedMixed : List Bool := [false, false, true, true, false, true, false, true]

/-- Identity stand-in for the abstracted `Web3.keccak(...).hex()` and
`Web3.to_checksum_address` collaborators in concrete evaluations. -/
def kid : String → String := fun s => s

/-- A well-formed flat token whose seven fields are all truthy. -/
def tokenGood : Json :=
  flatToken (.str "0xalice") (.str "0xbob") (.str "1000000") (.str "0xn1")
    (.str "1") (.str "99") (.str "0xsig")

/-- The normalized record `decode_x402_payment` produces for
`tokenGood` under the identity digest stand-in. -/
def rGood : PaymentData :=
  { from_addr := .str "0xalice", to_addr := .str "0xbob",
    value := .str "1000000", nonce := .str "0xn1",
    validAfter := .str "1", validBefore := .str "99",
    signature := .str "0xsig", txHash := "0xalice0xn199" }

/-- A flat token for the policy claim: `value = 999999` (less than
`MINT_PRICE`) and a recipient that is not the configured payment
destination. -/
def tokenC1 : Json :=
  flatToken (.str "0xpayer") (.str "0xattacker") (.num 999999) (.str "0xn2")
    (.str "1") (.str "99") (.str "0xsig")

/-- A flat token in which all seven required fields are present and
non-empty but `validAfter` is the number 0. -/
def tokenC7 : Json :=
  flatToken (.str "0xalice") (.str "0xbob") (.str "1000000") (.str "0xn3")
    (.num 0) (.str "99") (.str "0xsig")

/-- Chain oracle on which every attempt confirms with status 1. -/
def envHappy : ChainEnv :=
  { pendingNonce := fun i => 40 + i, gasPrice := fun _ => 100,
    outcome := fun _ => .confirmed 1, txHash := fun i => "0xt" ++ toString i }

/-- Chain oracle: attempt 0 raises an error mentioning neither nonce
nor replacement, attempt 1 confirms. -/
def envC3 : ChainEnv :=
  { pendingNonce := fun i => 50 + i, gasPrice := fun _ => 100,
    outcome := fun i => if i = 0 then .submitError ("rpc timeout") else .confirmed 1,
    txHash := fun i => "0xt" ++ toString i }

/-- Chain oracle: attempt 0 raises a gas-estimation error (no nonce
conflict, no underpriced replacement), attempt 1 confirms. -/
def envC4 : ChainEnv :=
  { pendingNonce := fun i => 50 + i, gasPrice := fun _ => 100,
    outcome := fun i => if i = 0 then .submitError ("gas estimation failed") else .confirmed 1,
    txHash := fun i => "0xt" ++ toString i }

/-- Chain oracle: nonce-conflict errors on attempts 0 and 1, a
status-1 confirmation on attempt 2. -/
def envW4 : ChainEnv :=
  { pendingNonce := fun i => 60 + i, gasPrice := fun i => 100 + i,
    outcome := fun i => if i < 2 then .submitError ("nonce too low") else .confirmed 1,
    txHash := fun i => "0xt" ++ toString i }

/-- Configuration used in concrete info-cache evaluations. -/
def cfg0 : InfoConfig :=
  { contract := "0xnft", price := 1000000, recipient := "0xrcpt" }

/-- The info payload built when the contract read fails. -/
def dataUnknown : InfoData :=
  { contract := "0xnft", price := 1000000, recipient := "0xrcpt",
    minted := .unknown, maxSupply := 1000 }

/-- A second flat token sharing payer, nonce and validBefore with
`tokenGood` but differing in amount, recipient, validAfter and
signature. -/
def tokenGood2 : Json :=
  flatToken (.str "0xalice") (.str "0xcarol") (.str "500") (.str "0xn1")
    (.str "7") (.str "99") (.str "0xzz")

/-- The normalized record `decode_x402_payment` produces for
`tokenGood2` under the identity digest stand-in. -/
def rGood2 : PaymentData :=
  { from_addr := .str "0xalice", to_addr := .str "0xcarol",
    value := .str "500", nonce := .str "0xn1",
    validAfter := .str "7", validBefore := .str "99",
    signature := .str "0xzz", txHash := "0xalice0xn199" }

/-- Two handlers of the same endpoint (same lock), run one after the
other. -/
def schedSame : List Bool := [false, false, false, false, true, true, true, true]

theorem extractFields_flat (f t v n va vb sg : Json) :
    extractFields (flatToken f t v n va vb sg) =
      (some f, some t, some v, some n, some va, some vb, some sg) := rfl

theorem extractFields_nested (f t v n va vb sg : Json) :
    extractFields (nestedToken f t v n va vb sg) =
      (some f, some t, some v, some n, some va, some vb, some sg) := rfl

theorem decode_ok_txHash (keccak : String → String) (j : Json) (r : PaymentData)
    (h : decode_x402_payment keccak j = .ok r) :
    r.txHash = keccak (pyStr r.from_addr ++ pyStr r.nonce ++ pyStr r.validBefore) := by
  unfold decode_x402_payment decodeFields at h
  rcases hx : extractFields j with ⟨a, b, c, d, e, f, g⟩
  rw [hx] at h
  simp only [] at h
  split at h
  · cases h
    rfl
  · cases h

/-- C1: the claim says the gateway validates every decoded
authorization against policy before executing any transfer, rejecting
a wrong recipient with WrongRecipient and an amount below
`MINT_PRICE = 1000000` with InsufficientAmount.  The code has no such
check: this evaluation runs the `/api/mint` pipeline on a token whose
amount is 999999 (below the required price) and whose recipient is not
the configured destination, and the settlement proceeds through
transfer and mint to a success response; no policy rejection exists
anywhere on the path (the response type has no such outcome). -/
theorem C1_policy_absent :
    Json.get tokenC1 ("value") = some (Json.num 999999) ∧
    999999 < MINT_PRICE ∧
    Json.get tokenC1 ("to") = some (Json.str "0xattacker") ∧
    (mint kid kid tokenC1 (.ok200 (some "0xu")) (.ok 5) envHappy).2
      = .success ("0xt0") ("0xpayer") 6 :=
  ⟨rfl, by decide, rfl, rfl⟩

/-- C5: any two successfully decoded payment authorizations that agree
on payer, nonce and validBefore receive the same settlementId
(`txHash`), whatever their amount, recipient, validAfter and signature;
and decoding is a pure function, so decoding the same token twice
yields the same result. -/
theorem C5_settlementId_depends_only_on_payer_nonce_validBefore
    (keccak : String → String) (j1 j2 : Json) (r1 r2 : PaymentData)
    (h1 : decode_x402_payment keccak j1 = .ok r1)
    (h2 : decode_x402_payment keccak j2 = .ok r2)
    (hf : r1.from_addr = r2.from_addr) (hn : r1.nonce = r2.nonce)
    (hb : r1.validBefore = r2.validBefore) :
    r1.txHash = r2.txHash ∧
    decode_x402_payment keccak j1 = decode_x402_payment keccak j1 := by
  refine ⟨?_, rfl⟩
  rw [decode_ok_txHash keccak j1 r1 h1, decode_ok_txHash keccak j2 r2 h2,
    hf, hn, hb]

/-- Witness for C5: `tokenGood` and `tokenGood2` share payer, nonce and
validBefore but differ in amount, recipient, validAfter and signature,
and their settlementIds coincide. -/
theorem C5_witness : rGood.txHash = rGood2.txHash :=
  (C5_settlementId_depends_only_on_payer_nonce_validBefore kid tokenGood
    tokenGood2 rGood rGood2 rfl rfl rfl rfl rfl).1

/-- C6: a flat-format token and a nested-format token carrying the same
seven logical fields decode to the same normalized result, including
the same settlementId. -/
theorem C6_shape_equivalence (keccak : String → String) (f t v n va vb sg : Json) :
    decode_x402_payment keccak (flatToken f t v n va vb sg)
      = decode_x402_payment keccak (nestedToken f t v n va vb sg) := by
  unfold decode_x402_payment
  rw [extractFields_flat, extractFields_nested]

/-- C7 counterexample: the claim says a token in which all seven
required fields are present and non-empty — including numeric fields
whose value is 0 — never draws the missing-field error.  In `tokenC7`
all seven fields are present and none is the empty string, but
`validAfter` is the number 0, which Python's `all([...])` treats as
falsy, so `decode_x402_payment` rejects it with
"Missing required fields". -/
theorem C7_counterexample :
    Json.hasKey tokenC7 ("from") = true ∧ Json.hasKey tokenC7 ("to") = true ∧
    Json.hasKey tokenC7 ("value") = true ∧ Json.hasKey tokenC7 ("nonce") = true ∧
    Json.hasKey tokenC7 ("validAfter") = true ∧
    Json.hasKey tokenC7 ("validBefore") = true ∧
    Json.hasKey tokenC7 ("signature") = true ∧
    Json.get tokenC7 ("validAfter") = some (Json.num 0) ∧
    decode_x402_payment kid tokenC7 = .invalid ("Missing required fields") :=
  ⟨rfl, rfl, rfl, rfl, rfl, rfl, rfl, rfl, rfl⟩

/-- C7 amended: decoding a well-shaped token fails with the
missing-field error exactly when at least one of the seven required
fields is falsy under Python truthiness after normalization — absent,
null, empty string, the number 0, false, or an empty object; in
particular a present numeric field equal to 0 is treated as missing. -/
theorem C7_amended_missing_field_truthiness (keccak : String → String)
    (j : Json) (_hw : wellShaped j = true) :
    (decode_x402_payment keccak j = .invalid ("Missing required fields") ↔
      allFieldsTruthy j = false) ∧
    truthy (some (Json.num 0)) = false ∧
    truthy (some (Json.str "")) = false ∧
    truthy none = false := by
  refine ⟨?_, rfl, rfl, rfl⟩
  unfold decode_x402_payment decodeFields allFieldsTruthy
  rcases hx : extractFields j with ⟨a, b, c, d, e, f2, g⟩
  dsimp only
  split
  · rename_i hcond
    simp [hcond]
  · rename_i hcond
    simp [Bool.not_eq_true] at hcond
    simp [hcond]
    exact hcond

/-- Witness for C7 amended, at the concrete zero-validAfter token. -/
theorem C7_amended_witness :
    (decode_x402_payment kid tokenC7 = .invalid ("Missing required fields") ↔
      allFieldsTruthy tokenC7 = false) ∧
    truthy (some (Json.num 0)) = false ∧
    truthy (some (Json.str "")) = false ∧
    truthy none = false :=
  C7_amended_missing_field_truthiness kid tokenC7 rfl

theorem countSubmits_nil : countSubmits [] = 0 := rfl

theorem countSubmits_readNonce_cons (a n : Nat) (l : List Event) :
    countSubmits (Event.readNonce a n :: l) = countSubmits l := rfl

theorem countSubmits_submit_cons (a : Nat) (s : Submission) (l : List Event) :
    countSubmits (Event.submit a s :: l) = countSubmits l + 1 := rfl

theorem countSubmits_sleep_cons (k : Nat) (l : List Event) :
    countSubmits (Event.sleep k :: l) = countSubmits l := rfl

theorem runA_succ_conf1 (gas : Nat) (env : ChainEnv) (a f : Nat)
    (h : env.outcome a = .confirmed 1) :
    runAttempts gas env a (f + 1) =
      ([.readNonce a (env.pendingNonce a),
        .submit a ⟨env.pendingNonce a, gas, 2 + a, env.gasPrice a * (2 + a)⟩],
       .success (env.txHash a)) := by
  simp only [runAttempts]
  rw [h]
  simp

theorem runA_conf_retry (gas : Nat) (env : ChainEnv) (a f s : Nat)
    (h : env.outcome a = .confirmed s) (hs : (s == 1) = false)
    (hlt : a < max_retries - 1) :
    runAttempts gas env a (f + 1) =
      ([.readNonce a (env.pendingNonce a),
        .submit a ⟨env.pendingNonce a, gas, 2 + a, env.gasPrice a * (2 + a)⟩] ++
        .sleep 2 :: (runAttempts gas env (a + 1) f).1,
       (runAttempts gas env (a + 1) f).2) := by
  simp only [runAttempts]
  rw [h]
  simp [hs, hlt]

theorem runA_conf_last (gas : Nat) (env : ChainEnv) (a f s : Nat)
    (h : env.outcome a = .confirmed s) (hs : (s == 1) = false)
    (hge : ¬ a < max_retries - 1) :
    runAttempts gas env a (f + 1) =
      ([.readNonce a (env.pendingNonce a),
        .submit a ⟨env.pendingNonce a, gas, 2 + a, env.gasPrice a * (2 + a)⟩],
       .failedAfterRetries) := by
  simp only [runAttempts]
  rw [h]
  simp [hs, hge]

theorem runA_err_nonce_retry (gas : Nat) (env : ChainEnv) (a f : Nat) (m : String)
    (h : env.outcome a = .submitError m) (hn : isNonceOrReplacement m = true)
    (hlt : a < max_retries - 1) :
    runAttempts gas env a (f + 1) =
      ([.readNonce a (env.pendingNonce a),
        .submit a ⟨env.pendingNonce a, gas, 2 + a, env.gasPrice a * (2 + a)⟩] ++
        .sleep 3 :: (runAttempts gas env (a + 1) f).1,
       (runAttempts gas env (a + 1) f).2) := by
  simp only [runAttempts]
  rw [h]
  simp [hn, hlt]

theorem runA_err_other_retry (gas : Nat) (env : ChainEnv) (a f : Nat) (m : String)
    (h : env.outcome a = .submitError m) (hn : isNonceOrReplacement m = false)
    (hlt : a < max_retries - 1) :
    runAttempts gas env a (f + 1) =
      ([.readNonce a (env.pendingNonce a),
        .submit a ⟨env.pendingNonce a, gas, 2 + a, env.gasPrice a * (2 + a)⟩] ++
        (runAttempts gas env (a + 1) f).1,
       (runAttempts gas env (a + 1) f).2) := by
  simp only [runAttempts]
  rw [h]
  have h1 : ¬ (isNonceOrReplacement m = true ∧ a < max_retries - 1) := by
    simp [hn]
  have h2 : ¬ (max_retries - 1 ≤ a) := by omega
  simp [h1, h2]

theorem runA_err_last (gas : Nat) (env : ChainEnv) (a f : Nat) (m : String)
    (h : env.outcome a = .submitError m) (hge : max_retries - 1 ≤ a) :
    runAttempts gas env a (f + 1) =
      ([.readNonce a (env.pendingNonce a),
        .submit a ⟨env.pendingNonce a, gas, 2 + a, env.gasPrice a * (2 + a)⟩],
       .raisedError m) := by
  simp only [runAttempts]
  rw [h]
  have h1 : ¬ (isNonceOrReplacement m = true ∧ a < max_retries - 1) := by
    rintro ⟨h1a, h1b⟩
    omega
  simp [h1, hge]

theorem runA_retry_result (gas : Nat) (env : ChainEnv) (a f : Nat)
    (hlt : a < max_retries - 1) (hne : env.outcome a ≠ .confirmed 1) :
    (runAttempts gas env a (f + 1)).2 = (runAttempts gas env (a + 1) f).2 := by
  cases h : env.outcome a with
  | confirmed s =>
    have hs : (s == 1) = false := by
      cases hb : (s == 1) with
      | false => rfl
      | true =>
        exfalso
        apply hne
        rw [h]
        have hs1 : s = 1 := by simpa using hb
        rw [hs1]
    rw [runA_conf_retry gas env a f s h hs hlt]
  | submitError m =>
    cases hn : isNonceOrReplacement m with
    | true => rw [runA_err_nonce_retry gas env a f m h hn hlt]
    | false => rw [runA_err_other_retry gas env a f m h hn hlt]

theorem runAttempts_submits_le (gas : Nat) (env : ChainEnv) :
    ∀ f a, countSubmits (runAttempts gas env a f).1 ≤ f := by
  intro f
  induction f with
  | zero =>
    intro a
    simp [runAttempts, countSubmits]
  | succ n ih =>
    intro a
    cases h : env.outcome a with
    | confirmed s =>
      cases hs : (s == 1) with
      | true =>
        have h1 : s = 1 := by simpa using hs
        subst h1
        rw [runA_succ_conf1 gas env a n h]
        simp only [countSubmits_readNonce_cons, countSubmits_submit_cons, countSubmits_nil]
        omega
      | false =>
        by_cases hlt : a < max_retries - 1
        · rw [runA_conf_retry gas env a n s h hs hlt]
          have h2 := ih (a + 1)
          simp only [List.cons_append, List.nil_append, countSubmits_readNonce_cons,
            countSubmits_submit_cons, countSubmits_sleep_cons] at h2 ⊢
          omega
        · rw [runA_conf_last gas env a n s h hs hlt]
          simp only [countSubmits_readNonce_cons, countSubmits_submit_cons, countSubmits_nil]
          omega
    | submitError m =>
      by_cases hge : max_retries - 1 ≤ a
      · rw [runA_err_last gas env a n m h hge]
        simp only [countSubmits_readNonce_cons, countSubmits_submit_cons, countSubmits_nil]
        omega
      · have hlt : a < max_retries - 1 := by omega
        cases hn : isNonceOrReplacement m with
        | true =>
          rw [runA_err_nonce_retry gas env a n m h hn hlt]
          have h2 := ih (a + 1)
          simp only [List.cons_append, List.nil_append, countSubmits_readNonce_cons,
            countSubmits_submit_cons, countSubmits_sleep_cons] at h2 ⊢
          omega
        | false =>
          rw [runA_err_other_retry gas env a n m h hn hlt]
          have h2 := ih (a + 1)
          simp only [List.cons_append, List.nil_append, countSubmits_readNonce_cons,
            countSubmits_submit_cons, countSubmits_sleep_cons] at h2 ⊢
          omega

theorem runAttempts_submit_mem (gas : Nat) (env : ChainEnv) :
    ∀ f a i s, Event.submit i s ∈ (runAttempts gas env a f).1 →
      s.nonce = env.pendingNonce i ∧ s.gasMultiplier = 2 + i ∧
      s.maxFeePerGas = env.gasPrice i * (2 + i) ∧ s.gas = gas := by
  intro f
  induction f with
  | zero =>
    intro a i s hmem
    simp [runAttempts] at hmem
  | succ n ih =>
    intro a i s hmem
    have hhead : Event.submit i s = Event.submit a
        (⟨env.pendingNonce a, gas, 2 + a, env.gasPrice a * (2 + a)⟩ : Submission) →
        s.nonce = env.pendingNonce i ∧ s.gasMultiplier = 2 + i ∧
        s.maxFeePerGas = env.gasPrice i * (2 + i) ∧ s.gas = gas := by
      intro he
      have h1 : i = a := by injection he
      have h2 : s = ⟨env.pendingNonce a, gas, 2 + a, env.gasPrice a * (2 + a)⟩ := by
        injection he
      subst h1
      subst h2
      exact ⟨rfl, rfl, rfl, rfl⟩
    cases h : env.outcome a with
    | confirmed st =>
      cases hs : (st == 1) with
      | true =>
        have h1 : st = 1 := by simpa using hs
        subst h1
        rw [runA_succ_conf1 gas env a n h] at hmem
        simp only [List.mem_cons, List.not_mem_nil, or_false] at hmem
        rcases hmem with hmem | hmem
        · cases hmem
        · exact hhead hmem
      | false =>
        by_cases hlt : a < max_retries - 1
        · rw [runA_conf_retry gas env a n st h hs hlt] at hmem
          simp only [List.cons_append, List.nil_append, List.mem_cons] at hmem
          rcases hmem with hmem | hmem | hmem
          · cases hmem
          · exact hhead hmem
          · rcases hmem with hmem | hmem
            · cases hmem
            · exact ih (a + 1) i s hmem
        · rw [runA_conf_last gas env a n st h hs hlt] at hmem
          simp only [List.mem_cons, List.not_mem_nil, or_false] at hmem
          rcases hmem with hmem | hmem
          · cases hmem
          · exact hhead hmem
    | submitError m =>
      by_cases hge : max_retries - 1 ≤ a
      · rw [runA_err_last gas env a n m h hge] at hmem
        simp only [List.mem_cons, List.not_mem_nil, or_false] at hmem
        rcases hmem with hmem | hmem
        · cases hmem
        · exact hhead hmem
      · have hlt : a < max_retries - 1 := by omega
        cases hn : isNonceOrReplacement m with
        | true =>
          rw [runA_err_nonce_retry gas env a n m h hn hlt] at hmem
          simp only [List.cons_append, List.nil_append, List.mem_cons] at hmem
          rcases hmem with hmem | hmem | hmem
          · cases hmem
          · exact hhead hmem
          · rcases hmem with hmem | hmem
            · cases hmem
            · exact ih (a + 1) i s hmem
        | false =>
          rw [runA_err_other_retry gas env a n m h hn hlt] at hmem
          simp only [List.cons_append, List.nil_append, List.mem_cons] at hmem
          rcases hmem with hmem | hmem | hmem
          · cases hmem
          · exact hhead hmem
          · exact ih (a + 1) i s hmem

theorem runAttempts_success_confirmed (gas : Nat) (env : ChainEnv) :
    ∀ f a tx, (runAttempts gas env a f).2 = .success tx →
      ∃ i, a ≤ i ∧ i < a + f ∧ env.outcome i = .confirmed 1 ∧ tx = env.txHash i := by
  intro f
  induction f with
  | zero =>
    intro a tx hr
    simp [runAttempts] at hr
  | succ n ih =>
    intro a tx hr
    cases h : env.outcome a with
    | confirmed st =>
      cases hs : (st == 1) with
      | true =>
        have h1 : st = 1 := by simpa using hs
        subst h1
        rw [runA_succ_conf1 gas env a n h] at hr
        refine ⟨a, Nat.le_refl a, by omega, h, ?_⟩
        have : ExecResult.success (env.txHash a) = ExecResult.success tx := hr
        injection this with h2
        exact h2.symm
      | false =>
        by_cases hlt : a < max_retries - 1
        · rw [runA_conf_retry gas env a n st h hs hlt] at hr
          obtain ⟨i, hi1, hi2, hi3, hi4⟩ := ih (a + 1) tx hr
          exact ⟨i, by omega, by omega, hi3, hi4⟩
        · rw [runA_conf_last gas env a n st h hs hlt] at hr
          cases hr
    | submitError m =>
      by_cases hge : max_retries - 1 ≤ a
      · rw [runA_err_last gas env a n m h hge] at hr
        cases hr
      · have hlt : a < max_retries - 1 := by omega
        cases hn : isNonceOrReplacement m with
        | true =>
          rw [runA_err_nonce_retry gas env a n m h hn hlt] at hr
          obtain ⟨i, hi1, hi2, hi3, hi4⟩ := ih (a + 1) tx hr
          exact ⟨i, by omega, by omega, hi3, hi4⟩
        | false =>
          rw [runA_err_other_retry gas env a n m h hn hlt] at hr
          obtain ⟨i, hi1, hi2, hi3, hi4⟩ := ih (a + 1) tx hr
          exact ⟨i, by omega, by omega, hi3, hi4⟩

theorem runA_head_submit (gas : Nat) (env : ChainEnv) (a f : Nat) :
    ∃ s, Event.submit a s ∈ (runAttempts gas env a (f + 1)).1 := by
  refine ⟨⟨env.pendingNonce a, gas, 2 + a, env.gasPrice a * (2 + a)⟩, ?_⟩
  cases h : env.outcome a with
  | confirmed st =>
    cases hs : (st == 1) with
    | true =>
      have h1 : st = 1 := by simpa using hs
      subst h1
      rw [runA_succ_conf1 gas env a f h]
      simp
    | false =>
      by_cases hlt : a < max_retries - 1
      · rw [runA_conf_retry gas env a f st h hs hlt]
        simp
      · rw [runA_conf_last gas env a f st h hs hlt]
        simp
  | submitError m =>
    by_cases hge : max_retries - 1 ≤ a
    · rw [runA_err_last gas env a f m h hge]
      simp
    · have hlt : a < max_retries - 1 := by omega
      cases hn : isNonceOrReplacement m with
      | true =>
        rw [runA_err_nonce_retry gas env a f m h hn hlt]
        simp
      | false =>
        rw [runA_err_other_retry gas env a f m h hn hlt]
        simp

theorem runA_retry_trace_mem (gas : Nat) (env : ChainEnv) (a f : Nat)
    (hlt : a < max_retries - 1) (hne : env.outcome a ≠ .confirmed 1)
    (e : Event) (he : e ∈ (runAttempts gas env (a + 1) f).1) :
    e ∈ (runAttempts gas env a (f + 1)).1 := by
  cases h : env.outcome a with
  | confirmed st =>
    have hs : (st == 1) = false := by
      cases hb : (st == 1) with
      | false => rfl
      | true =>
        exfalso
        apply hne
        rw [h]
        have h1 : st = 1 := by simpa using hb
        rw [h1]
    rw [runA_conf_retry gas env a f st h hs hlt]
    simp only [List.cons_append, List.nil_append, List.mem_cons]
    exact Or.inr (Or.inr (Or.inr he))
  | submitError m =>
    cases hn : isNonceOrReplacement m with
    | true =>
      rw [runA_err_nonce_retry gas env a f m h hn hlt]
      simp only [List.cons_append, List.nil_append, List.mem_cons]
      exact Or.inr (Or.inr (Or.inr he))
    | false =>
      rw [runA_err_other_retry gas env a f m h hn hlt]
      simp only [List.cons_append, List.nil_append, List.mem_cons]
      exact Or.inr (Or.inr he)

/-- C2: whenever the facilitation step does not succeed (non-200 answer
or a raised exception, which is how a reverted or failed USDC transfer
surfaces), `/api/mint` submits no mint transaction and terminates with
the transfer-failure error; and the retry loop reports success only
when some attempt actually confirmed with receipt status 1, so only a
confirmed transfer can make the facilitator answer 200 and let the
mint step run. -/
theorem C2_no_mint_without_confirmed_transfer
    (keccak checksum : String → String) (payment : Json) (fac : FacOutcome)
    (tokenIdRead : Except String Nat) (env : ChainEnv)
    (hfac : ∀ t, fac ≠ FacOutcome.ok200 t) :
    ((mint keccak checksum payment fac tokenIdRead env).1 = [] ∧
      ((mint keccak checksum payment fac tokenIdRead env).2 = .invalidPayment ∨
       (mint keccak checksum payment fac tokenIdRead env).2 = .transferFailed)) ∧
    (∀ env2 tx, (facilitate_retry env2).2 = .success tx →
      ∃ i, i < max_retries ∧ env2.outcome i = .confirmed 1 ∧ tx = env2.txHash i) := by
  constructor
  · unfold mint
    rcases hd : decode_x402_payment keccak payment with pd | e
    · cases fac with
      | ok200 t => exact absurd rfl (hfac t)
      | notOk s => exact ⟨rfl, Or.inr rfl⟩
      | exn m => exact ⟨rfl, Or.inr rfl⟩
    · exact ⟨rfl, Or.inl rfl⟩
  · intro env2 tx h
    obtain ⟨i, hi1, hi2, hi3, hi4⟩ :=
      runAttempts_success_confirmed 200000 env2 max_retries 0 tx h
    exact ⟨i, by omega, hi3, hi4⟩

/-- Witness for C2: with a facilitator call that raised, the pipeline
emits no mint submission and answers with the transfer failure. -/
theorem C2_witness :
    (mint kid kid tokenGood (.exn ("connection error")) (.ok 3) envHappy).1 = [] ∧
    ((mint kid kid tokenGood (.exn ("connection error")) (.ok 3) envHappy).2
        = .invalidPayment ∨
     (mint kid kid tokenGood (.exn ("connection error")) (.ok 3) envHappy).2
        = .transferFailed) :=
  (C2_no_mint_without_confirmed_transfer kid kid tokenGood
    (.exn ("connection error")) (.ok 3) envHappy
    (fun _t h => FacOutcome.noConfusion h)).1

/-- C3 counterexample: the claim says a submission-time error whose
message indicates neither a nonce conflict nor an underpriced
replacement makes the executor abort immediately with no further retry.
With `envC3`, attempt 0 raises "rpc timeout" (matching neither word),
yet the loop submits a second time and even finishes successfully. -/
theorem C3_counterexample :
    isNonceOrReplacement ("rpc timeout") = false ∧
    envC3.outcome 0 = .submitError ("rpc timeout") ∧
    countSubmits (facilitate_retry envC3).1 = 2 ∧
    (facilitate_retry envC3).2 = .success ("0xt1") :=
  ⟨rfl, rfl, rfl, rfl⟩

/-- C3 amended: the executor re-raises a submission-time error (of any
kind) only on the final attempt — the loop ends with a raised error
exactly when neither of the first two attempts confirmed with status 1
and the last attempt raised; on a non-final attempt every
submission-time error triggers another submission, whether or not its
message mentions a nonce conflict or an underpriced replacement (the
nonce/replacement test only decides whether a 3-second backoff precedes
the retry). -/
theorem C3_amended_retry_classification (gas : Nat) (env : ChainEnv) (msg : String) :
    ((runAttempts gas env 0 max_retries).2 = .raisedError msg ↔
      env.outcome 0 ≠ .confirmed 1 ∧ env.outcome 1 ≠ .confirmed 1 ∧
      env.outcome 2 = .submitError msg) ∧
    (env.outcome 0 = .submitError msg →
      ∃ s, Event.submit 1 s ∈ (runAttempts gas env 0 max_retries).1) ∧
    (env.outcome 0 ≠ .confirmed 1 → env.outcome 1 = .submitError msg →
      ∃ s, Event.submit 2 s ∈ (runAttempts gas env 0 max_retries).1) := by
  refine ⟨⟨?_, ?_⟩, ?_, ?_⟩
  · intro hr
    have h0ne : env.outcome 0 ≠ .confirmed 1 := by
      intro h0
      have hsucc : (runAttempts gas env 0 max_retries).2
          = ExecResult.success (env.txHash 0) :=
        congrArg Prod.snd (runA_succ_conf1 gas env 0 2 h0)
      cases hsucc.symm.trans hr
    have e1 : (runAttempts gas env 0 max_retries).2 = (runAttempts gas env 1 2).2 :=
      runA_retry_result gas env 0 2 (by decide) h0ne
    rw [e1] at hr
    have h1ne : env.outcome 1 ≠ .confirmed 1 := by
      intro h1
      have hsucc : (runAttempts gas env 1 2).2
          = ExecResult.success (env.txHash 1) :=
        congrArg Prod.snd (runA_succ_conf1 gas env 1 1 h1)
      cases hsucc.symm.trans hr
    have e2 : (runAttempts gas env 1 2).2 = (runAttempts gas env 2 1).2 :=
      runA_retry_result gas env 1 1 (by decide) h1ne
    rw [e2] at hr
    cases h2 : env.outcome 2 with
    | confirmed st =>
      exfalso
      cases hs : (st == 1) with
      | true =>
        have hst : st = 1 := by simpa using hs
        subst hst
        have hsucc : (runAttempts gas env 2 1).2
            = ExecResult.success (env.txHash 2) :=
          congrArg Prod.snd (runA_succ_conf1 gas env 2 0 h2)
        cases hsucc.symm.trans hr
      | false =>
        have hfail : (runAttempts gas env 2 1).2
            = ExecResult.failedAfterRetries :=
          congrArg Prod.snd (runA_conf_last gas env 2 0 st h2 hs (by decide))
        cases hfail.symm.trans hr
    | submitError m =>
      have hraised : (runAttempts gas env 2 1).2 = ExecResult.raisedError m :=
        congrArg Prod.snd (runA_err_last gas env 2 0 m h2 (by decide))
      have hm : ExecResult.raisedError m = ExecResult.raisedError msg :=
        hraised.symm.trans hr
      injection hm with hm2
      subst hm2
      exact ⟨h0ne, h1ne, rfl⟩
  · rintro ⟨h0ne, h1ne, h2⟩
    have e1 : (runAttempts gas env 0 max_retries).2 = (runAttempts gas env 1 2).2 :=
      runA_retry_result gas env 0 2 (by decide) h0ne
    have e2 : (runAttempts gas env 1 2).2 = (runAttempts gas env 2 1).2 :=
      runA_retry_result gas env 1 1 (by decide) h1ne
    have e3 : (runAttempts gas env 2 1).2 = ExecResult.raisedError msg :=
      congrArg Prod.snd (runA_err_last gas env 2 0 msg h2 (by decide))
    exact e1.trans (e2.trans e3)
  · intro h0
    have h0ne : env.outcome 0 ≠ .confirmed 1 := by
      rw [h0]
      intro hc
      cases hc
    obtain ⟨s, hs⟩ := runA_head_submit gas env 1 1
    exact ⟨s, runA_retry_trace_mem gas env 0 2 (by decide) h0ne _ hs⟩
  · intro h0ne h1
    have h1ne : env.outcome 1 ≠ .confirmed 1 := by
      rw [h1]
      intro hc
      cases hc
    obtain ⟨s, hs⟩ := runA_head_submit gas env 2 0
    have m1 : Event.submit 2 s ∈ (runAttempts gas env 1 2).1 :=
      runA_retry_trace_mem gas env 1 1 (by decide) h1ne _ hs
    exact ⟨s, runA_retry_trace_mem gas env 0 2 (by decide) h0ne _ m1⟩

/-- Witness for C3 amended: a non-nonce, non-replacement error on
attempt 0 is followed by a second submission. -/
theorem C3_amended_witness :
    ∃ s, Event.submit 1 s ∈ (runAttempts 200000 envC3 0 max_retries).1 :=
  (C3_amended_retry_classification 200000 envC3 "rpc timeout").2.1 rfl

/-- C4 counterexample: the claim says every resubmission is preceded by
a fixed 2-3 second backoff.  With `envC4`, attempt 0 raises a
gas-estimation error (neither nonce conflict nor underpriced
replacement), and the loop resubmits immediately: the trace contains
two submissions and no sleep event at all. -/
theorem C4_counterexample :
    isNonceOrReplacement ("gas estimation failed") = false ∧
    envC4.outcome 0 = .submitError ("gas estimation failed") ∧
    (facilitate_retry envC4).1
      = [.readNonce 0 50, .submit 0 ⟨50, 200000, 2, 200⟩,
         .readNonce 1 51, .submit 1 ⟨51, 200000, 3, 300⟩] ∧
    (facilitate_retry envC4).2 = .success ("0xt1") :=
  ⟨rfl, rfl, rfl, rfl⟩

/-- C4 amended: at most 3 submissions ever occur; every submission at
attempt `i` uses the pending nonce read fresh at that attempt and bids
`(2 + i)` times the gas price observed at that attempt (2x, 3x, 4x);
and in the scenario with nonce-conflict errors on attempts 0 and 1 and
a status-1 confirmation on attempt 2, the run performs exactly the
trace read-submit-sleep(3)-read-submit-sleep(3)-read-submit and ends
in success — each of those two resubmissions after a nonce conflict is
preceded by a 3-second backoff (a reverted confirmation instead gets a
2-second backoff; only a retry after an unrelated submission error,
itself contrary to the spec, sleeps 0). -/
theorem C4_amended_retry_behaviour (gas : Nat) (env : ChainEnv) (m0 m1 : String)
    (h0 : env.outcome 0 = .submitError m0) (hn0 : isNonceOrReplacement m0 = true)
    (h1 : env.outcome 1 = .submitError m1) (hn1 : isNonceOrReplacement m1 = true)
    (h2 : env.outcome 2 = .confirmed 1) :
    (∀ env2 : ChainEnv, countSubmits (runAttempts gas env2 0 max_retries).1 ≤ 3) ∧
    (∀ env2 : ChainEnv, ∀ i s, Event.submit i s ∈ (runAttempts gas env2 0 max_retries).1 →
      s.nonce = env2.pendingNonce i ∧ s.gasMultiplier = 2 + i ∧
      s.maxFeePerGas = env2.gasPrice i * (2 + i)) ∧
    (runAttempts gas env 0 max_retries).1
      = [.readNonce 0 (env.pendingNonce 0),
         .submit 0 ⟨env.pendingNonce 0, gas, 2, env.gasPrice 0 * 2⟩,
         .sleep 3,
         .readNonce 1 (env.pendingNonce 1),
         .submit 1 ⟨env.pendingNonce 1, gas, 3, env.gasPrice 1 * 3⟩,
         .sleep 3,
         .readNonce 2 (env.pendingNonce 2),
         .submit 2 ⟨env.pendingNonce 2, gas, 4, env.gasPrice 2 * 4⟩] ∧
    (runAttempts gas env 0 max_retries).2 = .success (env.txHash 2) := by
  have e0 : runAttempts gas env 0 max_retries =
      ([Event.readNonce 0 (env.pendingNonce 0),
        Event.submit 0 ⟨env.pendingNonce 0, gas, 2, env.gasPrice 0 * 2⟩] ++
        Event.sleep 3 :: (runAttempts gas env 1 2).1,
       (runAttempts gas env 1 2).2) :=
    runA_err_nonce_retry gas env 0 2 m0 h0 hn0 (by decide)
  have e1 : runAttempts gas env 1 2 =
      ([Event.readNonce 1 (env.pendingNonce 1),
        Event.submit 1 ⟨env.pendingNonce 1, gas, 3, env.gasPrice 1 * 3⟩] ++
        Event.sleep 3 :: (runAttempts gas env 2 1).1,
       (runAttempts gas env 2 1).2) :=
    runA_err_nonce_retry gas env 1 1 m1 h1 hn1 (by decide)
  have e2 : runAttempts gas env 2 1 =
      ([Event.readNonce 2 (env.pendingNonce 2),
        Event.submit 2 ⟨env.pendingNonce 2, gas, 4, env.gasPrice 2 * 4⟩],
       ExecResult.success (env.txHash 2)) :=
    runA_succ_conf1 gas env 2 0 h2
  refine ⟨?_, ?_, ?_, ?_⟩
  · intro env2
    exact runAttempts_submits_le gas env2 max_retries 0
  · intro env2 i s h
    obtain ⟨ha, hb, hc, _⟩ := runAttempts_submit_mem gas env2 max_retries 0 i s h
    exact ⟨ha, hb, hc⟩
  · rw [e0, e1, e2]
    exact rfl
  · rw [e0, e1, e2]

/-- Witness for C4 amended: the concrete scenario with nonce-conflict
errors on attempts 0 and 1 and a confirmation on attempt 2. -/
theorem C4_amended_witness :
    (runAttempts 200000 envW4 0 max_retries).1
      = [.readNonce 0 60, .submit 0 ⟨60, 200000, 2, 200⟩, .sleep 3,
         .readNonce 1 61, .submit 1 ⟨61, 200000, 3, 303⟩, .sleep 3,
         .readNonce 2 62, .submit 2 ⟨62, 200000, 4, 408⟩] ∧
    (runAttempts 200000 envW4 0 max_retries).2 = .success ("0xt2") := by
  have h := C4_amended_retry_behaviour 200000 envW4 "nonce too low" "nonce too low"
    rfl rfl rfl rfl rfl
  exact ⟨h.2.2.1, h.2.2.2⟩

/-- C8 counterexample: the claim says a failed contract read is not
stored in the info cache, so the next query re-reads the contract.  In
the code the refresh stores its payload unconditionally: after a failed
read at t=100 the "unknown" payload sits in the cache, and a query at
t=105 — whose remote read would now succeed with 42 — still serves the
cached "unknown" payload. -/
theorem C8_counterexample :
    info cfg0 (.error "rpc down") 100 none = (dataUnknown, some (dataUnknown, 100)) ∧
    dataUnknown.minted = .unknown ∧
    info cfg0 (.ok (42, 777)) 105 (some (dataUnknown, 100))
      = (dataUnknown, some (dataUnknown, 100)) :=
  ⟨rfl, rfl, rfl⟩

/-- C8 amended: when the remote read fails during a refresh, `/api/info`
returns a payload whose minted count is the marked "unknown" value
rather than throwing — but that failure payload IS stored in the cache,
and any query within the TTL serves the cached failure instead of
performing a fresh remote read. -/
theorem C8_amended_failure_cached (cfg : InfoConfig) (e : String)
    (now later : Nat) (r2 : Except String (Nat × Nat))
    (hts : later - now < CACHE_TTL) :
    (refresh_info_cache cfg (.error e) now).1.minted = .unknown ∧
    info cfg (.error e) now none
      = ((refresh_info_cache cfg (.error e) now).1,
         some ((refresh_info_cache cfg (.error e) now).1, now)) ∧
    info cfg r2 later (some ((refresh_info_cache cfg (.error e) now).1, now))
      = ((refresh_info_cache cfg (.error e) now).1,
         some ((refresh_info_cache cfg (.error e) now).1, now)) := by
  refine ⟨rfl, rfl, ?_⟩
  unfold info
  simp [hts]

/-- Witness for C8 amended, at concrete times 100 and 105. -/
theorem C8_amended_witness :
    dataUnknown.minted = .unknown ∧
    info cfg0 (.error "rpc down") 100 none = (dataUnknown, some (dataUnknown, 100)) ∧
    info cfg0 (.ok (42, 777)) 105 (some (dataUnknown, 100))
      = (dataUnknown, some (dataUnknown, 100)) :=
  C8_amended_failure_cached cfg0 "rpc down" 100 105 (.ok (42, 777)) (by decide)

/-- C9 counterexample: the claim says that when the pre-mint supply
counter cannot be read, the response reports an opaque placeholder for
the token identifier rather than failing the whole request.  In the
code the `currentTokenId()` read failure raises into the outer handler:
the request fails with a 500 error body — after the USDC transfer has
already been executed — and no mint submission is attempted. -/
theorem C9_counterexample :
    (mint kid kid tokenGood (.ok200 (some "0xu")) (.error "rpc read failed") envHappy)
      = ([], .serverError ("rpc read failed")) :=
  rfl

/-- C9 amended: a settlement that reaches a confirmed mint returns
success with the mint transaction hash, the (checksummed) payer account
as recipient and tokenId equal to the pre-mint counter plus one; but
if the pre-mint counter cannot be read, the whole request fails with a
server error — no placeholder token identifier is reported. -/
theorem C9_amended_success_response (keccak checksum : String → String)
    (payment : Json) (t : Option String) (env : ChainEnv) (r : PaymentData)
    (tx : String) (n : Nat)
    (hdec : decode_x402_payment keccak payment = .ok r)
    (hrun : (mint_retry env).2 = .success tx) :
    (mint keccak checksum payment (.ok200 t) (.ok n) env).2
        = .success tx (checksum (pyStr r.from_addr)) (n + 1) ∧
    (∀ e, (mint keccak checksum payment (.ok200 t) (.error e) env).2
        = .serverError e) := by
  constructor
  · unfold mint
    rw [hdec]
    dsimp only
    rw [hrun]
  · intro e
    unfold mint
    rw [hdec]

/-- Witness for C9 amended: the happy-path settlement mints token 8
when the pre-mint counter reads 7. -/
theorem C9_amended_witness :
    (mint kid kid tokenGood (.ok200 (some "0xu")) (.ok 7) envHappy).2
      = .success ("0xt0") ("0xalice") 8 :=
  (C9_amended_success_response kid kid tokenGood (some "0xu") envHappy rGood
    "0xt0" 7 rfl rfl).1

theorem pending_setTask (s : SysSt) (t : Bool) (ts : TaskSt) :
    (s.setTask t ts).pending = s.pending := by
  cases t <;> rfl

theorem pending_setHeld (s : SysSt) (l : LockId) (v : Option Bool) :
    (s.setHeld l v).pending = s.pending := by
  cases l <;> rfl

theorem task_setTask_same (s : SysSt) (t : Bool) (ts : TaskSt) :
    (s.setTask t ts).task t = ts := by
  cases t <;> rfl

theorem task_setTask_other (s : SysSt) (t u : Bool) (ts : TaskSt) (h : u ≠ t) :
    (s.setTask t ts).task u = s.task u := by
  cases t <;> cases u
  · exact absurd rfl h
  · rfl
  · rfl
  · exact absurd rfl h

theorem task_setHeld (s : SysSt) (l : LockId) (v : Option Bool) (u : Bool) :
    (s.setHeld l v).task u = s.task u := by
  cases l <;> cases u <;> rfl

theorem held_setTask (s : SysSt) (t : Bool) (ts : TaskSt) (l : LockId) :
    (s.setTask t ts).held l = s.held l := by
  cases t <;> cases l <;> rfl

theorem held_setHeld_same (s : SysSt) (l : LockId) (v : Option Bool) :
    (s.setHeld l v).held l = v := by
  cases l <;> rfl

theorem pending_pendUpd (s : SysSt) (p : Nat) :
    ({ s with pending := p } : SysSt).pending = p := rfl

theorem task_pendUpd (s : SysSt) (p : Nat) (u : Bool) :
    ({ s with pending := p } : SysSt).task u = s.task u := by
  cases u <;> rfl

theorem held_pendUpd (s : SysSt) (p : Nat) (l : LockId) :
    ({ s with pending := p } : SysSt).held l = s.held l := by
  cases l <;> rfl

theorem sysStep_pc0_free (tl : Bool → LockId) (t : Bool) (s : SysSt)
    (hpc : (s.task t).pc = 0) (hheld : s.held (tl t) = none) :
    sysStep tl t s = (s.setHeld (tl t) (some t)).setTask t { s.task t with pc := 1 } := by
  unfold sysStep
  dsimp only
  rw [hpc, hheld]

theorem sysStep_pc0_busy (tl : Bool → LockId) (t : Bool) (s : SysSt) (u : Bool)
    (hpc : (s.task t).pc = 0) (hheld : s.held (tl t) = some u) :
    sysStep tl t s = s := by
  unfold sysStep
  dsimp only
  rw [hpc, hheld]

theorem sysStep_pc1 (tl : Bool → LockId) (t : Bool) (s : SysSt)
    (hpc : (s.task t).pc = 1) :
    sysStep tl t s = s.setTask t { pc := 2, readVal := some s.pending } := by
  unfold sysStep
  dsimp only
  rw [hpc]

theorem sysStep_pc2 (tl : Bool → LockId) (t : Bool) (s : SysSt)
    (hpc : (s.task t).pc = 2) :
    sysStep tl t s =
      { s.setTask t { s.task t with pc := 3 } with pending := s.pending + 1 } := by
  unfold sysStep
  dsimp only
  rw [hpc]

theorem sysStep_pc3 (tl : Bool → LockId) (t : Bool) (s : SysSt)
    (hpc : (s.task t).pc = 3) :
    sysStep tl t s = (s.setHeld (tl t) none).setTask t { s.task t with pc := 4 } := by
  unfold sysStep
  dsimp only
  rw [hpc]

theorem sysStep_pc4 (tl : Bool → LockId) (t : Bool) (s : SysSt)
    (hpc : (s.task t).pc = 4) :
    sysStep tl t s = s := by
  unfold sysStep
  dsimp only
  rw [hpc]

theorem task_setTask_ff (s : SysSt) (ts : TaskSt) :
    (s.setTask false ts).task false = ts := rfl

theorem task_setTask_ft (s : SysSt) (ts : TaskSt) :
    (s.setTask false ts).task true = s.task true := rfl

theorem task_setTask_tf (s : SysSt) (ts : TaskSt) :
    (s.setTask true ts).task false = s.task false := rfl

theorem task_setTask_tt (s : SysSt) (ts : TaskSt) :
    (s.setTask true ts).task true = ts := rfl


theorem sysStep_inv (l : LockId) (t : Bool) (s : SysSt) (h : SysInv l s) :
    SysInv l (sysStep (fun _ => l) t s) := by
  unfold SysInv TaskInv inCrit at h ⊢
  obtain ⟨⟨hle0, hn0, h20, h30⟩, ⟨hle1, hn1, h21, h31⟩, hc0, hc1, hd⟩ := h
  cases t with
  | false =>
    have h5 : (s.task false).pc = 0 ∨ (s.task false).pc = 1 ∨
        (s.task false).pc = 2 ∨ (s.task false).pc = 3 ∨
        (s.task false).pc = 4 := by omega
    rcases h5 with hpc | hpc | hpc | hpc | hpc
    · cases hheld : s.held l with
      | some u =>
        rw [sysStep_pc0_busy _ _ _ u hpc hheld]
        exact ⟨⟨hle0, hn0, h20, h30⟩, ⟨hle1, hn1, h21, h31⟩, hc0, hc1, hd⟩
      | none =>
        rw [sysStep_pc0_free _ _ _ hpc hheld]
        simp only [pending_setTask, pending_setHeld, task_setTask_ff,
          task_setTask_ft, task_setHeld, held_setTask, held_setHeld_same]
        refine ⟨⟨by omega, ?_, ?_, ?_⟩, ⟨hle1, hn1, h21, h31⟩, ?_, ?_, ?_⟩
        · intro _
          exact hn0 (by omega)
        · intro hx
          omega
        · intro hx
          omega
        · intro _
          trivial
        · intro hcrit
          exfalso
          have hx := hc1 hcrit
          rw [hheld] at hx
          cases hx
        · intro v w hv hw
          have hx := hn0 (by omega)
          rw [hx] at hv
          cases hv
    · rw [sysStep_pc1 _ _ _ hpc]
      simp only [pending_setTask, task_setTask_ff, task_setTask_ft, held_setTask]
      have hcritF : 1 ≤ (s.task false).pc ∧ (s.task false).pc ≤ 3 := by omega
      have hheldF := hc0 hcritF
      refine ⟨⟨by omega, ?_, ?_, ?_⟩, ⟨hle1, hn1, h21, h31⟩, ?_, ?_, ?_⟩
      · intro hx
        omega
      · intro _
        trivial
      · intro hx
        omega
      · intro _
        exact hheldF
      · intro hcrit
        exact hc1 hcrit
      · intro v w hv hw
        have hne : ¬ (1 ≤ (s.task true).pc ∧ (s.task true).pc ≤ 3) := by
          intro hcrit
          have hx := (hc1 hcrit).symm.trans hheldF
          injection hx with hx2
          cases hx2
        have hge : ¬ ((s.task true).pc ≤ 1) := by
          intro hle2
          rw [hn1 hle2] at hw
          cases hw
        have hpc4 : 3 ≤ (s.task true).pc := by omega
        obtain ⟨u, hu1, hu2⟩ := h31 hpc4
        rw [hu1] at hw
        injection hv with hv2
        injection hw with hw2
        omega
    · rw [sysStep_pc2 _ _ _ hpc]
      simp only [pending_setTask, task_setTask_ff, task_setTask_ft, held_setTask,
        task_pendUpd, held_pendUpd, pending_pendUpd]
      have hcritF : 1 ≤ (s.task false).pc ∧ (s.task false).pc ≤ 3 := by omega
      have hheldF := hc0 hcritF
      have hrd := h20 hpc
      refine ⟨⟨by omega, ?_, ?_, ?_⟩, ⟨hle1, hn1, ?_, ?_⟩, ?_, ?_, ?_⟩
      · intro hx
        omega
      · intro hx
        omega
      · intro _
        exact ⟨s.pending, hrd, by omega⟩
      · intro h2T
        exfalso
        have hcritT : 1 ≤ (s.task true).pc ∧ (s.task true).pc ≤ 3 := by omega
        have hx := (hc1 hcritT).symm.trans hheldF
        injection hx with hx2
        cases hx2
      · intro h3T
        obtain ⟨u, hu1, hu2⟩ := h31 h3T
        exact ⟨u, hu1, by omega⟩
      · intro _
        exact hheldF
      · intro hcrit
        exact hc1 hcrit
      · intro v w hv hw
        exact hd v w hv hw
    · rw [sysStep_pc3 _ _ _ hpc]
      simp only [pending_setTask, pending_setHeld, task_setTask_ff,
        task_setTask_ft, task_setHeld, held_setTask, held_setHeld_same]
      have hcritF : 1 ≤ (s.task false).pc ∧ (s.task false).pc ≤ 3 := by omega
      have hheldF := hc0 hcritF
      refine ⟨⟨by omega, ?_, ?_, ?_⟩, ⟨hle1, hn1, h21, h31⟩, ?_, ?_, ?_⟩
      · intro hx
        omega
      · intro hx
        omega
      · intro _
        exact h30 (by omega)
      · intro hcrit
        exfalso
        omega
      · intro hcrit
        exfalso
        have hx := (hc1 hcrit).symm.trans hheldF
        injection hx with hx2
        cases hx2
      · intro v w hv hw
        exact hd v w hv hw
    · rw [sysStep_pc4 _ _ _ hpc]
      exact ⟨⟨hle0, hn0, h20, h30⟩, ⟨hle1, hn1, h21, h31⟩, hc0, hc1, hd⟩
  | true =>
    have h5 : (s.task true).pc = 0 ∨ (s.task true).pc = 1 ∨
        (s.task true).pc = 2 ∨ (s.task true).pc = 3 ∨
        (s.task true).pc = 4 := by omega
    rcases h5 with hpc | hpc | hpc | hpc | hpc
    · cases hheld : s.held l with
      | some u =>
        rw [sysStep_pc0_busy _ _ _ u hpc hheld]
        exact ⟨⟨hle0, hn0, h20, h30⟩, ⟨hle1, hn1, h21, h31⟩, hc0, hc1, hd⟩
      | none =>
        rw [sysStep_pc0_free _ _ _ hpc hheld]
        simp only [pending_setTask, pending_setHeld, task_setTask_tt,
          task_setTask_tf, task_setHeld, held_setTask, held_setHeld_same]
        refine ⟨⟨hle0, hn0, h20, h30⟩, ⟨by omega, ?_, ?_, ?_⟩, ?_, ?_, ?_⟩
        · intro _
          exact hn1 (by omega)
        · intro hx
          omega
        · intro hx
          omega
        · intro hcrit
          exfalso
          have hx := hc0 hcrit
          rw [hheld] at hx
          cases hx
        · intro _
          trivial
        · intro v w hv hw
          have hx := hn1 (by omega)
          rw [hx] at hw
          cases hw
    · rw [sysStep_pc1 _ _ _ hpc]
      simp only [pending_setTask, task_setTask_tt, task_setTask_tf, held_setTask]
      have hcritT : 1 ≤ (s.task true).pc ∧ (s.task true).pc ≤ 3 := by omega
      have hheldT := hc1 hcritT
      refine ⟨⟨hle0, hn0, h20, h30⟩, ⟨by omega, ?_, ?_, ?_⟩, ?_, ?_, ?_⟩
      · intro hx
        omega
      · intro _
        trivial
      · intro hx
        omega
      · intro hcrit
        exact hc0 hcrit
      · intro _
        exact hheldT
      · intro v w hv hw
        have hne : ¬ (1 ≤ (s.task false).pc ∧ (s.task false).pc ≤ 3) := by
          intro hcrit
          have hx := (hc0 hcrit).symm.trans hheldT
          injection hx with hx2
          cases hx2
        have hge : ¬ ((s.task false).pc ≤ 1) := by
          intro hle2
          rw [hn0 hle2] at hv
          cases hv
        have hpc4 : 3 ≤ (s.task false).pc := by omega
        obtain ⟨u, hu1, hu2⟩ := h30 hpc4
        rw [hu1] at hv
        injection hv with hv2
        injection hw with hw2
        omega
    · rw [sysStep_pc2 _ _ _ hpc]
      simp only [pending_setTask, task_setTask_tt, task_setTask_tf, held_setTask,
        task_pendUpd, held_pendUpd, pending_pendUpd]
      have hcritT : 1 ≤ (s.task true).pc ∧ (s.task true).pc ≤ 3 := by omega
      have hheldT := hc1 hcritT
      have hrd := h21 hpc
      refine ⟨⟨hle0, hn0, ?_, ?_⟩, ⟨by omega, ?_, ?_, ?_⟩, ?_, ?_, ?_⟩
      · intro h2F
        exfalso
        have hcritF : 1 ≤ (s.task false).pc ∧ (s.task false).pc ≤ 3 := by omega
        have hx := (hc0 hcritF).symm.trans hheldT
        injection hx with hx2
        cases hx2
      · intro h3F
        obtain ⟨u, hu1, hu2⟩ := h30 h3F
        exact ⟨u, hu1, by omega⟩
      · intro hx
        omega
      · intro hx
        omega
      · intro _
        exact ⟨s.pending, hrd, by omega⟩
      · intro hcrit
        exact hc0 hcrit
      · intro _
        exact hheldT
      · intro v w hv hw
        exact hd v w hv hw
    · rw [sysStep_pc3 _ _ _ hpc]
      simp only [pending_setTask, pending_setHeld, task_setTask_tt,
        task_setTask_tf, task_setHeld, held_setTask, held_setHeld_same]
      have hcritT : 1 ≤ (s.task true).pc ∧ (s.task true).pc ≤ 3 := by omega
      have hheldT := hc1 hcritT
      refine ⟨⟨hle0, hn0, h20, h30⟩, ⟨by omega, ?_, ?_, ?_⟩, ?_, ?_, ?_⟩
      · intro hx
        omega
      · intro hx
        omega
      · intro _
        exact h31 (by omega)
      · intro hcrit
        exfalso
        have hx := (hc0 hcrit).symm.trans hheldT
        injection hx with hx2
        cases hx2
      · intro hcrit
        exfalso
        omega
      · intro v w hv hw
        exact hd v w hv hw
    · rw [sysStep_pc4 _ _ _ hpc]
      exact ⟨⟨hle0, hn0, h20, h30⟩, ⟨hle1, hn1, h21, h31⟩, hc0, hc1, hd⟩

theorem sysInit_inv (l : LockId) (p : Nat) : SysInv l (sysInit p) := by
  unfold SysInv TaskInv inCrit sysInit SysSt.task
  simp

theorem runSched_inv (l : LockId) (sched : List Bool) (s : SysSt)
    (h : SysInv l s) : SysInv l (runSched (fun _ => l) sched s) := by
  induction sched generalizing s with
  | nil => exact h
  | cons t rest ih => exact ih (sysStep (fun _ => l) t s) (sysStep_inv l t s h)

/-- C10 counterexample: the claim covers "a facilitation and a mint
from different requests" sharing the admin signer.  Those two handlers
hold different locks (`facilitator_lock` vs `mint_lock`), so an
interleaving exists — exhibited by `schedMixed` — in which both acquire
their locks, both read the same pending nonce 5, and both submit
(pending rises from 5 to 7 and both handlers finish): the exclusive
scopes do not prevent the collision. -/
theorem C10_counterexample :
    tlMixed false = .fac ∧ tlMixed true = .mint ∧
    (runSched tlMixed schedMixed (sysInit 5)).t0.readVal = some 5 ∧
    (runSched tlMixed schedMixed (sysInit 5)).t1.readVal = some 5 ∧
    (runSched tlMixed schedMixed (sysInit 5)).t0.pc = 4 ∧
    (runSched tlMixed schedMixed (sysInit 5)).t1.pc = 4 ∧
    (runSched tlMixed schedMixed (sysInit 5)).pending = 7 :=
  ⟨rfl, rfl, rfl, rfl, rfl, rfl, rfl⟩

/-- C10 amended: two concurrent executions of the same endpoint — two
transfer facilitations under `facilitator_lock`, or two mints under
`mint_lock` — are serialized by their shared lock: under every
schedule, if both handlers have performed their pending-nonce read,
the two values they observed differ (so their submissions are ordered
by distinct sequence numbers).  A facilitation and a mint from
different requests hold different locks and enjoy no such guarantee. -/
theorem C10_amended_same_lock_distinct_reads (l : LockId) (sched : List Bool)
    (p v w : Nat)
    (hv : (runSched (fun _ => l) sched (sysInit p)).t0.readVal = some v)
    (hw : (runSched (fun _ => l) sched (sysInit p)).t1.readVal = some w) :
    v ≠ w := by
  have hinv := runSched_inv l sched (sysInit p) (sysInit_inv l p)
  exact hinv.2.2.2.2 v w hv hw

/-- Witness for C10 amended: two facilitations run in sequence under
`facilitator_lock` read pending nonces 5 and 6. -/
theorem C10_amended_witness : (5 : Nat) ≠ 6 ∧
    (runSched (fun _ => LockId.fac) schedSame (sysInit 5)).t0.readVal = some 5 ∧
    (runSched (fun _ => LockId.fac) schedSame (sysInit 5)).t1.readVal = some 6 :=
  ⟨C10_amended_same_lock_distinct_reads LockId.fac schedSame 5 5 6 rfl rfl,
   rfl, rfl⟩
